import Mathlib

/-!
Verification of the Morpho peer-to-pool adapter core
(`MorphoBasePoolAdapter`, Morpho AaveV3 ETH optimizer) and the token
metadata resolver of the mmi-defi-adapters repository.

All bigint quantities coming from the chain are unsigned and are modelled
as `Nat`; profit arithmetic, which can go negative, is modelled as `Int`.
Fallible computations (JavaScript `BigInt` division by zero throws a
`RangeError`) are modelled with `Option`: `none` is the thrown exception.

Definitions follow the TypeScript source of `MorphoBasePoolAdapter`.
Helpers that the adapter imports but whose sources are not part of this
snapshot (`MorphoAaveMath`, `P2PInterestRates`, `aggregateTrades`,
`evm-maths` ray utilities) are modelled from the specification and marked
as such in their doc comments.
-/

/-- Ray scale: fixed point with 27 decimals, `RAY = 10 ^ 27`. -/
def RAY : Nat := 10 ^ 27

/-- Modelled from the spec: `FixedPointMath.rayMul` / `MorphoAaveMath.indexMul`
(the `AaveV3.maths` module is not part of the source snapshot).
`rayMul a b = round(a * b / RAY)` with round-half-up on the scaled result. -/
def rayMul (a b : Nat) : Nat := (a * b + RAY / 2) / RAY

/-- Modelled from the spec: `FixedPointMath.rayDiv` / `MorphoAaveMath.indexDiv`
(the `AaveV3.maths` module is not part of the source snapshot).
`rayDiv a b = round(a * RAY / b)` with round-half-up, failing with
`DivisionByZero` (here `none`) exactly when `b = 0`. -/
def rayDiv (a b : Nat) : Option Nat :=
  if b = 0 then none else some ((a * RAY + b / 2) / b)

/-- The `proportionIdle` expression of `MorphoBasePoolAdapter`: the exact same
expression appears in all four places it is computed (`getTotalValueLocked`
and `_getProtocolTokenApr`, supply and borrow branches alike):
`idleSupply === 0n ? 0n : min(ONE, indexDiv(idleSupply, indexMul(scaledP2PTotal, p2pIndex)))`
with `ONE = RAY` and `scaledP2PTotal`/`p2pIndex` taken from the supply side. -/
def proportionIdle (idleSupply scaledP2PTotal p2pIndex : Nat) : Option Nat :=
  if idleSupply = 0 then some 0
  else (rayDiv idleSupply (rayMul scaledP2PTotal p2pIndex)).map (fun q => min RAY q)

/-- Pool-index / peer-matched-index pair for one market side. -/
structure MarketSideIndexes where
  poolIndex : Nat
  p2pIndex : Nat
deriving DecidableEq

/-- Scaled delta state for one market side. -/
structure MarketSideDelta where
  scaledDelta : Nat
  scaledP2PTotal : Nat
deriving DecidableEq

/-- Supply/borrow delta state of a market. -/
structure MarketDeltas where
  supply : MarketSideDelta
  borrow : MarketSideDelta
deriving DecidableEq

/-- Supply/borrow indexes of a market. -/
structure MarketIndexes where
  supply : MarketSideIndexes
  borrow : MarketSideIndexes
deriving DecidableEq

/-- Argument record of `P2PInterestRates.computeP2PIndexes`, mirroring the
object literal built at the call sites in `MorphoBasePoolAdapter`. -/
structure IrmParams where
  deltas : MarketDeltas
  proportionIdle : Nat
  p2pIndexCursor : Nat
  reserveFactor : Nat
  lastSupplyIndexes : MarketSideIndexes
  lastBorrowIndexes : MarketSideIndexes
  poolSupplyIndex : Nat
  poolBorrowIndex : Nat

/-- Result record of `computeP2PIndexes`. -/
structure P2PIndexes where
  newP2PSupplyIndex : Nat
  newP2PBorrowIndex : Nat
deriving DecidableEq

/-- Modelled from the spec: `P2PInterestRates.computeP2PIndexes`
(`internal-utils/P2PInterestRates` is not part of the source snapshot).
Per the spec's algorithm: compute the pool index growth ratios since the
last update, blend them by the `p2pIndexCursor` basis-point weight,
subtract the `reserveFactor` basis-point skim from the blended growth,
reduce the supply-side growth towards the pool growth by `proportionIdle`,
and apply the net growth multiplicatively to the previous P2P indexes
via `rayMul`. -/
def computeP2PIndexes (p : IrmParams) : Option P2PIndexes := do
  let supplyGrowth ← rayDiv p.poolSupplyIndex p.lastSupplyIndexes.poolIndex
  let borrowGrowth ← rayDiv p.poolBorrowIndex p.lastBorrowIndexes.poolIndex
  let blendedGrowth :=
    ((10000 - p.p2pIndexCursor) * supplyGrowth + p.p2pIndexCursor * borrowGrowth) / 10000
  let netGrowth := RAY + (blendedGrowth - RAY) * (10000 - p.reserveFactor) / 10000
  let supplyEffectiveGrowth :=
    rayMul netGrowth (RAY - p.proportionIdle) + rayMul supplyGrowth p.proportionIdle
  pure
    { newP2PSupplyIndex := rayMul p.lastSupplyIndexes.p2pIndex supplyEffectiveGrowth
      newP2PBorrowIndex := rayMul p.lastBorrowIndexes.p2pIndex netGrowth }

/-- Argument record of `computeP2PSupplyRatePerYear` /
`computeP2PBorrowRatePerYear`, mirroring the call sites. -/
structure RateParams where
  p2pIndex : Nat
  proportionIdle : Nat
  p2pIndexCursor : Nat
  reserveFactor : Nat
  delta : MarketSideDelta
  poolBorrowRatePerYear : Nat
  poolSupplyRatePerYear : Nat
  poolIndex : Nat

/-- Modelled from the spec: `P2PInterestRates.computeP2PSupplyRatePerYear`
(not part of the source snapshot). Mirrors the index calculator's
blend/cursor/reserve-factor logic expressed as a yearly rate, with
`proportionIdle` pulling the rate towards the pure pool supply rate. -/
def computeP2PSupplyRatePerYear (p : RateParams) : Nat :=
  let blendedRate :=
    ((10000 - p.p2pIndexCursor) * p.poolSupplyRatePerYear
      + p.p2pIndexCursor * p.poolBorrowRatePerYear) / 10000
  let afterReserve := blendedRate * (10000 - p.reserveFactor) / 10000
  rayMul afterReserve (RAY - p.proportionIdle)
    + rayMul p.poolSupplyRatePerYear p.proportionIdle

/-- Modelled from the spec: `P2PInterestRates.computeP2PBorrowRatePerYear`
(not part of the source snapshot). Same blend and reserve-factor skim as
the supply-side rate, without the idle-supply reduction. -/
def computeP2PBorrowRatePerYear (p : RateParams) : Nat :=
  let blendedRate :=
    ((10000 - p.p2pIndexCursor) * p.poolSupplyRatePerYear
      + p.p2pIndexCursor * p.poolBorrowRatePerYear) / 10000
  blendedRate * (10000 - p.reserveFactor) / 10000

/-- Per-market on-chain state fetched by `getTotalValueLocked` and
`_getProtocolTokenApr`: the `morphoAaveV3.market(...)` fields, the Aave
pool `getReserveData(...)` fields, and the pool-held token balances
(`aToken.balanceOf(morpho)` and `variableDebtToken.balanceOf(morpho)`). -/
structure MarketState where
  idleSupply : Nat
  indexes : MarketIndexes
  deltas : MarketDeltas
  p2pIndexCursor : Nat
  reserveFactor : Nat
  liquidityIndex : Nat
  variableBorrowIndex : Nat
  currentLiquidityRate : Nat
  currentVariableBorrowRate : Nat
  supplyOnPool : Nat
  borrowOnPool : Nat

/-- The `proportionIdle` of a fetched market state, as computed at all four
call sites (always from the supply-side delta and supply-side p2p index). -/
def marketProportionIdle (st : MarketState) : Option Nat :=
  proportionIdle st.idleSupply st.deltas.supply.scaledP2PTotal st.indexes.supply.p2pIndex

/-- The `computeP2PIndexes` argument object built by the adapter from a
fetched market state and a computed `proportionIdle`. -/
def irmParamsOf (st : MarketState) (propIdle : Nat) : IrmParams :=
  { deltas := st.deltas
    proportionIdle := propIdle
    p2pIndexCursor := st.p2pIndexCursor
    reserveFactor := st.reserveFactor
    lastSupplyIndexes := st.indexes.supply
    lastBorrowIndexes := st.indexes.borrow
    poolSupplyIndex := st.liquidityIndex
    poolBorrowIndex := st.variableBorrowIndex }

/-- `supplyInP2P = indexMul(deltas.supply.scaledP2PTotal, newP2PSupplyIndex)`. -/
def supplyP2PAmount (st : MarketState) (idxs : P2PIndexes) : Nat :=
  rayMul st.deltas.supply.scaledP2PTotal idxs.newP2PSupplyIndex

/-- `borrowInP2P = indexMul(deltas.borrow.scaledP2PTotal, newP2PBorrowIndex)`. -/
def borrowP2PAmount (st : MarketState) (idxs : P2PIndexes) : Nat :=
  rayMul st.deltas.borrow.scaledP2PTotal idxs.newP2PBorrowIndex

/-- Supply branch of `getTotalValueLocked` for one market:
`totalValueRaw = supplyInP2P + supplyOnPool` where
`supplyInP2P = indexMul(scaledP2PTotal, newP2PSupplyIndex)`. -/
def totalValueLockedSupply (st : MarketState) : Option Nat := do
  let propIdle ← marketProportionIdle st
  let idxs ← computeP2PIndexes (irmParamsOf st propIdle)
  pure (supplyP2PAmount st idxs + st.supplyOnPool)

/-- Borrow branch of `getTotalValueLocked` for one market:
`totalValueRaw = borrowInP2P + borrowOnPool`. -/
def totalValueLockedBorrow (st : MarketState) : Option Nat := do
  let propIdle ← marketProportionIdle st
  let idxs ← computeP2PIndexes (irmParamsOf st propIdle)
  pure (borrowP2PAmount st idxs + st.borrowOnPool)

/-- The `computeP2PSupplyRatePerYear` argument object built by
`_getProtocolTokenApr` (supply branch). -/
def supplyRateParamsOf (st : MarketState) (propIdle : Nat) (idxs : P2PIndexes) : RateParams :=
  { p2pIndex := idxs.newP2PSupplyIndex
    proportionIdle := propIdle
    p2pIndexCursor := st.p2pIndexCursor
    reserveFactor := st.reserveFactor
    delta := st.deltas.supply
    poolBorrowRatePerYear := st.currentVariableBorrowRate
    poolSupplyRatePerYear := st.currentLiquidityRate
    poolIndex := st.liquidityIndex }

/-- The `computeP2PBorrowRatePerYear` argument object built by
`_getProtocolTokenApr` (borrow branch). -/
def borrowRateParamsOf (st : MarketState) (propIdle : Nat) (idxs : P2PIndexes) : RateParams :=
  { p2pIndex := idxs.newP2PBorrowIndex
    proportionIdle := propIdle
    p2pIndexCursor := st.p2pIndexCursor
    reserveFactor := st.reserveFactor
    delta := st.deltas.borrow
    poolBorrowRatePerYear := st.currentVariableBorrowRate
    poolSupplyRatePerYear := st.currentLiquidityRate
    poolIndex := st.variableBorrowIndex }

/-- Supply branch of `_getProtocolTokenApr`:
`rate = totalSupply === 0n ? currentLiquidityRate
      : rayDiv(indexMul(p2pSupplyRate, supplyInP2P) + indexMul(currentLiquidityRate, supplyOnPool), totalSupply)`. -/
def supplyAprRate (st : MarketState) : Option Nat := do
  let propIdle ← marketProportionIdle st
  let idxs ← computeP2PIndexes (irmParamsOf st propIdle)
  let supplyInP2P := supplyP2PAmount st idxs
  let totalSupply := supplyInP2P + st.supplyOnPool
  let p2pSupplyRate := computeP2PSupplyRatePerYear (supplyRateParamsOf st propIdle idxs)
  if totalSupply = 0 then pure st.currentLiquidityRate
  else
    rayDiv (rayMul p2pSupplyRate supplyInP2P + rayMul st.currentLiquidityRate st.supplyOnPool)
      totalSupply

/-- Borrow branch of `_getProtocolTokenApr`:
`rate = totalBorrow === 0n ? currentVariableBorrowRate
      : rayDiv(indexMul(p2pBorrowRate, borrowInP2P) + indexMul(currentVariableBorrowRate, borrowOnPool), totalBorrow)`. -/
def borrowAprRate (st : MarketState) : Option Nat := do
  let propIdle ← marketProportionIdle st
  let idxs ← computeP2PIndexes (irmParamsOf st propIdle)
  let borrowInP2P := borrowP2PAmount st idxs
  let totalBorrow := borrowInP2P + st.borrowOnPool
  let p2pBorrowRate := computeP2PBorrowRatePerYear (borrowRateParamsOf st propIdle idxs)
  if totalBorrow = 0 then pure st.currentVariableBorrowRate
  else
    rayDiv (rayMul p2pBorrowRate borrowInP2P + rayMul st.currentVariableBorrowRate st.borrowOnPool)
      totalBorrow

/-- ERC-20 token identity as used throughout the adapters. -/
structure Erc20Metadata where
  address : String
  name : String
  symbol : String
  decimals : Nat
deriving DecidableEq

/-- Position type of an adapter, from `ProtocolDetails.positionType`. -/
inductive PositionType
  | supply
  | borrow
  | staked
  | lend
deriving DecidableEq

/-- One entry of the adapter's metadata map: a protocol-token /
underlying-token pair resolved by `buildMetadata`. -/
structure PoolMetadata where
  protocolToken : Erc20Metadata
  underlyingToken : Erc20Metadata
deriving DecidableEq

/-- The read-only balance views `getPositions` consults per market; the
argument is the address the adapter passes to the contract call (the
underlying token's address), with user address and block number fixed. -/
structure BalanceOracle where
  supplyBalance : String → Nat
  collateralBalance : String → Nat
  borrowBalance : String → Nat

/-- The inner `getBalance` helper of `getPositions`: supply-position
adapters add the supply and collateral balances, borrow-position adapters
read the borrow balance. -/
def getBalance (positionType : PositionType) (oracle : BalanceOracle)
    (marketAddress : String) : Nat :=
  if positionType = PositionType.supply then
    oracle.supplyBalance marketAddress + oracle.collateralBalance marketAddress
  else
    oracle.borrowBalance marketAddress

/-- An underlying-token balance attached to a position. -/
structure UnderlyingBalance where
  token : Erc20Metadata
  balanceRaw : Nat
deriving DecidableEq

/-- A protocol position returned by `getPositions`. -/
structure ProtocolPosition where
  address : String
  balanceRaw : Nat
  name : String
  symbol : String
  decimals : Nat
  tokens : List UnderlyingBalance
deriving DecidableEq

/-- `_getUnderlyingTokenBalances`: returns the single underlying token with
`balanceRaw` copied unchanged from the protocol-token balance. -/
def underlyingTokenBalances (pool : PoolMetadata) (protocolTokenBalanceRaw : Nat) :
    List UnderlyingBalance :=
  [{ token := pool.underlyingToken, balanceRaw := protocolTokenBalanceRaw }]

/-- `getPositions`: per market, fetch the balance selected by the position
type (keyed by the underlying token's address), filter out zero balances,
and attach protocol-token metadata and the underlying token balances. -/
def getPositions (positionType : PositionType) (oracle : BalanceOracle)
    (pools : List PoolMetadata) : List ProtocolPosition :=
  (((pools.map (fun pool =>
        (pool, getBalance positionType oracle pool.underlyingToken.address))).filter
      (fun pb => pb.2 ≠ 0)).map
    (fun pb =>
      { address := pb.1.protocolToken.address
        balanceRaw := pb.2
        name := pb.1.protocolToken.name
        symbol := pb.1.protocolToken.symbol
        decimals := pb.1.protocolToken.decimals
        tokens := underlyingTokenBalances pb.1 pb.2 }))

/-- One `UnderlyingTokenRate` entry of `_getUnderlyingTokenConversionRate`. -/
structure UnderlyingTokenRate where
  token : Erc20Metadata
  underlyingRateRaw : Nat
deriving DecidableEq

/-- `_getUnderlyingTokenConversionRate`: the protocol token is pegged one to
one, so the rate is `PRICE_PEGGED_TO_ONE * 10 ** protocolTokenMetadata.decimals`. -/
def underlyingTokenConversionRate (pool : PoolMetadata) : List UnderlyingTokenRate :=
  [{ token := pool.underlyingToken
     underlyingRateRaw := 1 * 10 ^ pool.protocolToken.decimals }]

/-- One underlying-token movement carried by a `MovementsByBlock` entry:
the token address with the raw event amount. -/
structure BaseTokenMovement where
  address : String
  movementValueRaw : Nat
deriving DecidableEq

/-- Modelled from the spec: `aggregateTrades` (`core/utils/aggregateTrades`
is not part of the source snapshot): aggregates movement events by summing
raw amounts per token address into a record; an address is a key of the
record exactly when some movement references it. -/
def aggregateTrades (movements : List BaseTokenMovement) (address : String) : Option Nat :=
  let amounts := (movements.filter (fun m => m.address = address)).map
    (fun m => m.movementValueRaw)
  if amounts.isEmpty then none else some amounts.sum

/-- JavaScript object-spread merge `{...a, ...b}` read at one key: `b`'s
entry wins whenever the key is present in `b`. -/
def spreadMerge (a b : String → Option Nat) (address : String) : Option Nat :=
  match b address with
  | some v => some v
  | none => a address

/-- The `eventsIn` record built by `getProfits` for a supply-position
adapter: `{...depositEvents, ...collateralDepositEvents}` where each side
is an `aggregateTrades` result. -/
def eventsInSupply (depositMovements collateralDepositMovements : List BaseTokenMovement)
    (address : String) : Option Nat :=
  spreadMerge (aggregateTrades depositMovements)
    (aggregateTrades collateralDepositMovements) address

/-- The `eventsOut` record built by `getProfits` for a supply-position
adapter: `{...withdrawalEvents, ...collateralWithdrawalEvents}`. -/
def eventsOutSupply (withdrawalMovements collateralWithdrawalMovements : List BaseTokenMovement)
    (address : String) : Option Nat :=
  spreadMerge (aggregateTrades withdrawalMovements)
    (aggregateTrades collateralWithdrawalMovements) address

/-- The per-underlying-token profit computation of `getProfits`
(`calculationData` and `profitRaw`): missing start positions (either the
protocol token absent from the start snapshot or the underlying token
absent below it, the optional-chaining plus `?? 0n` defaults) and missing
event sums are treated as `0`, and the result is negated for
borrow-position adapters. -/
def profitForToken (positionType : PositionType)
    (eventsOut eventsIn : String → Option Nat)
    (startPositionsForProtocolToken : Option (String → Option Nat))
    (address : String) (endPositionValueRaw : Nat) : Int :=
  let startPositionValueRaw : Nat :=
    ((startPositionsForProtocolToken.bind (fun f => f address)).getD 0)
  let outRaw : Nat := (eventsOut address).getD 0
  let inRaw : Nat := (eventsIn address).getD 0
  let profitRaw : Int :=
    (endPositionValueRaw : Int) + (outRaw : Int) - (inRaw : Int) - (startPositionValueRaw : Int)
  if positionType = PositionType.borrow then profitRaw * (-1) else profitRaw

/-- JavaScript `||` on string literals: falsy (empty) left operand yields
the right operand, otherwise the left operand. -/
def jsStringOr (a b : String) : String := if a = "" then b else a

/-- The `eventType` value `getDeposits` passes to `_getMovements`:
the source expression is `'supplied' || 'collat-supplied'`. -/
def getDepositsEventType : String := jsStringOr "supplied" "collat-supplied"

/-- The `eventType` value `getCollateralDeposits` passes to `_getMovements`. -/
def getCollateralDepositsEventType : String := "collat-supplied"

/-- The six Morpho event filters `_getMovements` can build. -/
inductive MorphoEventFilter
  | supplied
  | collateralSupplied
  | withdrawn
  | collateralWithdrawn
  | repaid
  | borrowed
deriving DecidableEq

/-- The `switch (eventType)` of `_getMovements` selecting the contract
event filter; the switch has no default branch, so an unknown string
leaves the filter undefined (`none`). -/
def movementFilter (eventType : String) : Option MorphoEventFilter :=
  if eventType = "supplied" then some MorphoEventFilter.supplied
  else if eventType = "collat-supplied" then some MorphoEventFilter.collateralSupplied
  else if eventType = "withdrawn" then some MorphoEventFilter.withdrawn
  else if eventType = "collat-withdrawn" then some MorphoEventFilter.collateralWithdrawn
  else if eventType = "repaid" then some MorphoEventFilter.repaid
  else if eventType = "borrowed" then some MorphoEventFilter.borrowed
  else none

/-- Chain id constant used by the resolver's Ethereum-only special case. -/
def ethereumChainId : Nat := 1

/-- The hardcoded `REAL_ESTATE_TOKEN_METADATA` constant of
`getTokenMetadata.ts` (REUSD does not implement `decimals`/`name`/`symbol`). -/
def realEstateTokenMetadata : Erc20Metadata :=
  { address := "0x6b8734ad31D42F5c05A86594314837C416ADA984"
    name := "Real Estate USD (REUSD)"
    symbol := "Real Estate USD (REUSD)"
    decimals := 18 }

/-- The per-chain native token data `nativeToken[chainId]` (address omitted:
the resolver fills it from the queried address). -/
structure NativeTokenInfo where
  name : String
  symbol : String
  decimals : Nat
deriving DecidableEq

/-- Environment of `getTokenMetadata`: the chain id, the `ethers`
`getAddress` checksummer, the native-token table, the per-chain static file
cache (`CHAIN_METADATA[chainId]`, `none` when the chain has no file), and
the outcome of the live on-chain lookup (`none` when it fails). -/
structure MetadataEnv where
  chainId : Nat
  checksum : String → String
  nativeTokenAddresses : List String
  nativeInfo : NativeTokenInfo
  fileCache : Option (String → Option Erc20Metadata)
  onChain : Option Erc20Metadata

/-- The file-cache lookup performed by `getTokenMetadata`:
`CHAIN_METADATA[chainId]?.[tokenAddress.toLowerCase()]`. -/
def fileLookup (env : MetadataEnv) (tokenAddress : String) : Option Erc20Metadata :=
  match env.fileCache with
  | some cache => cache tokenAddress.toLower
  | none => none

/-- `getTokenMetadata` of `packages/lib/src/core/utils/getTokenMetadata.ts`:
hardcoded REUSD special case, native-token special case, then the static
file cache, then the live on-chain lookup, and an error only after all of
those produced nothing. -/
def getTokenMetadata (env : MetadataEnv) (tokenAddress : String) :
    Except String Erc20Metadata :=
  if env.checksum tokenAddress = realEstateTokenMetadata.address
      ∧ env.chainId = ethereumChainId then
    Except.ok realEstateTokenMetadata
  else if tokenAddress ∈ env.nativeTokenAddresses then
    Except.ok
      { address := env.checksum tokenAddress
        name := env.nativeInfo.name
        symbol := env.nativeInfo.symbol
        decimals := env.nativeInfo.decimals }
  else
    match fileLookup env tokenAddress with
    | some m =>
      Except.ok
        { address := env.checksum m.address
          name := m.name
          symbol := m.symbol
          decimals := m.decimals }
    | none =>
      match env.onChain with
      | some m => Except.ok m
      | none => Except.error "Cannot find token metadata for token"

/-- Multiplying zero by any ray value yields zero even with half-up rounding. -/
theorem rayMul_zero_left (b : Nat) : rayMul 0 b = 0 := by
  simp only [rayMul, Nat.zero_mul, Nat.zero_add]
  decide

/-- A concrete fetched market state with `idleSupply = 1` but
`deltas.supply.scaledP2PTotal = 0`. -/
def proportionIdleCxState : MarketState :=
  { idleSupply := 1
    indexes :=
      { supply := { poolIndex := RAY, p2pIndex := RAY }
        borrow := { poolIndex := RAY, p2pIndex := RAY } }
    deltas :=
      { supply := { scaledDelta := 0, scaledP2PTotal := 0 }
        borrow := { scaledDelta := 0, scaledP2PTotal := 0 } }
    p2pIndexCursor := 0
    reserveFactor := 0
    liquidityIndex := RAY
    variableBorrowIndex := RAY
    currentLiquidityRate := 0
    currentVariableBorrowRate := 0
    supplyOnPool := 0
    borrowOnPool := 0 }

/-- C1 counterexample: at the concrete market state with `idleSupply = 1`,
`scaledP2PTotal = 0` and supply p2p index `RAY`, the `proportionIdle`
expression divides by zero (the thrown `RangeError` is `none`), and the
failure propagates through `getTotalValueLocked`'s supply branch; so with
`scaledP2PTotal = 0` the computed `proportionIdle` is not `0` regardless
of `idleSupply`, refuting the claim. -/
theorem proportionIdle_cx :
    proportionIdle 1 0 RAY = none ∧
    totalValueLockedSupply proportionIdleCxState = none ∧
    (none : Option Nat) ≠ some 0 := by
  refine ⟨rfl, rfl, by decide⟩

/-- C1 (amended): the zero guard of the `proportionIdle` expression tests
`idleSupply`, not `scaledP2PTotal`. When `scaledP2PTotal = 0` and the
documented idle-supply bound `idleSupply ≤ rayMul scaledP2PTotal p2pIndex`
holds, `idleSupply` must be `0`, the guard fires and `proportionIdle = 0`
with no division performed; but for `idleSupply ≠ 0` with
`scaledP2PTotal = 0` the computation divides by zero. The same expression
is used at all four call sites. -/
theorem proportionIdle_amended (idleSupply p2pIndex : Nat) :
    (∀ scaledP2PTotal, scaledP2PTotal = 0 →
        idleSupply ≤ rayMul scaledP2PTotal p2pIndex →
        proportionIdle idleSupply scaledP2PTotal p2pIndex = some 0) ∧
    (idleSupply ≠ 0 → proportionIdle idleSupply 0 p2pIndex = none) := by
  constructor
  · intro scaledP2PTotal hzero hle
    subst hzero
    rw [rayMul_zero_left] at hle
    have h0 : idleSupply = 0 := Nat.le_zero.mp hle
    simp [proportionIdle, h0]
  · intro hne
    simp [proportionIdle, hne, rayMul_zero_left, rayDiv]

/-- Witness for C1 (amended) at concrete inputs. -/
theorem proportionIdle_amended_witness :
    proportionIdle 0 0 RAY = some 0 ∧ proportionIdle 5 0 RAY = none := by
  exact ⟨(proportionIdle_amended 0 RAY).1 0 rfl (Nat.zero_le _),
    (proportionIdle_amended 5 RAY).2 (by decide)⟩

/-- C4: the reported `profitRaw` equals
`endPositionValue + outflows - inflows - startPositionValue`, with missing
start positions and missing event sums defaulting to `0`, multiplied by
`-1` exactly when the adapter's position type is Borrow. -/
theorem profitForToken_formula (positionType : PositionType)
    (eventsOut eventsIn : String → Option Nat)
    (startPositionsForProtocolToken : Option (String → Option Nat))
    (address : String) (endPositionValueRaw : Nat) :
    profitForToken positionType eventsOut eventsIn startPositionsForProtocolToken
        address endPositionValueRaw
      = (if positionType = PositionType.borrow then (-1 : Int) else 1) *
          ((endPositionValueRaw : Int)
            + (((eventsOut address).getD 0 : Nat) : Int)
            - (((eventsIn address).getD 0 : Nat) : Int)
            - ((((startPositionsForProtocolToken.bind (fun f => f address)).getD 0) : Nat) : Int)) := by
  cases positionType <;> simp [profitForToken]

/-- C6: the `eventType` expression of `getDeposits`,
`'supplied' || 'collat-supplied'`, evaluates to the constant `'supplied'`
under JavaScript truthiness, so `_getMovements` builds the `Supplied`
filter and a `getDeposits` call by itself never queries
`CollateralSupplied` events. -/
theorem getDeposits_eventType_supplied :
    getDepositsEventType = "supplied" ∧
    movementFilter getDepositsEventType = some MorphoEventFilter.supplied ∧
    movementFilter getDepositsEventType ≠ some MorphoEventFilter.collateralSupplied := by
  refine ⟨rfl, rfl, by decide⟩

/-- C7: on identical raw inputs, the profit computed by a supply-position
adapter and by a borrow-position adapter are exact negatives. -/
theorem profit_sign_inversion (eventsOut eventsIn : String → Option Nat)
    (startPositionsForProtocolToken : Option (String → Option Nat))
    (address : String) (endPositionValueRaw : Nat) :
    profitForToken PositionType.supply eventsOut eventsIn startPositionsForProtocolToken
        address endPositionValueRaw
      = -profitForToken PositionType.borrow eventsOut eventsIn startPositionsForProtocolToken
          address endPositionValueRaw := by
  simp [profitForToken]

/-- The record-or-absent summary of a list of amounts is invariant under
permutation of the list. -/
theorem sumOption_perm {a b : List Nat} (h : a.Perm b) :
    (if a.isEmpty then none else some a.sum) = (if b.isEmpty then none else some b.sum) := by
  have hlen := h.length_eq
  have hsum := h.sum_eq
  cases a <;> cases b <;> simp_all

/-- `aggregateTrades` is invariant under permutation of the movement list. -/
theorem aggregateTrades_perm {l l' : List BaseTokenMovement} (h : l.Perm l')
    (address : String) :
    aggregateTrades l address = aggregateTrades l' address := by
  unfold aggregateTrades
  exact sumOption_perm ((h.filter _).map _)

/-- C5 counterexample: a token with a plain deposit of `100` and a
collateral deposit of `40` in range gets `eventsIn = 40`, the
collateral-deposit sum alone — the object spread
`{...depositEvents, ...collateralDepositEvents}` overwrites instead of
adding, so the inflow total is not the sum `140` of both categories. -/
theorem eventsInSupply_overwrite_cx :
    eventsInSupply [{ address := "0xtokenX", movementValueRaw := 100 }]
        [{ address := "0xtokenX", movementValueRaw := 40 }] "0xtokenX" = some 40 ∧
    (100 : Nat) + 40 = 140 ∧ (some 40 : Option Nat) ≠ some 140 := by
  refine ⟨rfl, rfl, by decide⟩

/-- C5 (amended): within each event category amounts are summed per token
address, so each category's total — and hence the whole aggregation — is
independent of event ordering; but the inflow record merges the two
categories by object spread, so a token with any collateral-deposit event
in range reports the collateral-deposit sum alone, and only a token with
no collateral-deposit events reports its plain-deposit sum. -/
theorem eventsInSupply_amended
    (depositMovements collateralDepositMovements : List BaseTokenMovement)
    (address : String) :
    (eventsInSupply depositMovements collateralDepositMovements address =
      if (collateralDepositMovements.filter (fun m => m.address = address)).isEmpty
      then aggregateTrades depositMovements address
      else some (((collateralDepositMovements.filter (fun m => m.address = address)).map
            (fun m => m.movementValueRaw)).sum)) ∧
    (∀ depositMovements2 collateralDepositMovements2,
      depositMovements.Perm depositMovements2 →
      collateralDepositMovements.Perm collateralDepositMovements2 →
      eventsInSupply depositMovements collateralDepositMovements address =
        eventsInSupply depositMovements2 collateralDepositMovements2 address) := by
  constructor
  · unfold eventsInSupply spreadMerge
    by_cases hc : (collateralDepositMovements.filter (fun m => decide (m.address = address))) = []
    · have h1 : aggregateTrades collateralDepositMovements address = none := by
        simp [aggregateTrades, hc]
      rw [h1]
      simp [hc]
    · have h1 : aggregateTrades collateralDepositMovements address
          = some (((collateralDepositMovements.filter
              (fun m => decide (m.address = address))).map (fun m => m.movementValueRaw)).sum) := by
        simp [aggregateTrades, hc]
      rw [h1]
      simp [hc]
  · intro depositMovements2 collateralDepositMovements2 hd hc
    unfold eventsInSupply spreadMerge
    rw [aggregateTrades_perm hc address, aggregateTrades_perm hd address]

/-- Witness for C5 (amended): deposits of `[100, 50]` and no collateral
deposits for token `0xa` give `eventsIn = 150`, and reordering the
deposit events does not change the result. -/
theorem eventsInSupply_amended_witness :
    eventsInSupply [{ address := "0xa", movementValueRaw := 100 },
        { address := "0xa", movementValueRaw := 50 }] [] "0xa" = some 150 ∧
    eventsInSupply [{ address := "0xa", movementValueRaw := 100 },
        { address := "0xa", movementValueRaw := 50 }] [] "0xa" =
      eventsInSupply [{ address := "0xa", movementValueRaw := 50 },
        { address := "0xa", movementValueRaw := 100 }] [] "0xa" := by
  have h := eventsInSupply_amended
    [{ address := "0xa", movementValueRaw := 100 }, { address := "0xa", movementValueRaw := 50 }]
    [] "0xa"
  exact ⟨h.1.trans (by rfl), h.2 _ _ (List.Perm.swap _ _ _) (List.Perm.refl _)⟩

/-- C3: per market, `getTotalValueLocked` reports
`scaledP2PTotal` ray-multiplied by the freshly computed new P2P index of
the side selected by the adapter's position type, plus the raw pool-held
balance: whenever the `proportionIdle` and index pipeline succeeds, the
supply branch returns `indexMul(scaledP2PTotal_supply, newP2PSupplyIndex) + supplyOnPool`
and the borrow branch `indexMul(scaledP2PTotal_borrow, newP2PBorrowIndex) + borrowOnPool`. -/
theorem totalValueLocked_formula (st : MarketState) (propIdle : Nat) (idxs : P2PIndexes)
    (h1 : marketProportionIdle st = some propIdle)
    (h2 : computeP2PIndexes (irmParamsOf st propIdle) = some idxs) :
    totalValueLockedSupply st
        = some (rayMul st.deltas.supply.scaledP2PTotal idxs.newP2PSupplyIndex
            + st.supplyOnPool) ∧
    totalValueLockedBorrow st
        = some (rayMul st.deltas.borrow.scaledP2PTotal idxs.newP2PBorrowIndex
            + st.borrowOnPool) := by
  constructor <;>
    simp [totalValueLockedSupply, totalValueLockedBorrow, h1, h2,
      supplyP2PAmount, borrowP2PAmount]

/-- A concrete market: `idleSupply = 0`, supply `scaledP2PTotal = 1000`,
previous supply p2p index `1.1 ray`, unit pool growth, `supplyOnPool = 500`. -/
def tvlExampleState : MarketState :=
  { idleSupply := 0
    indexes :=
      { supply := { poolIndex := RAY, p2pIndex := 11 * 10 ^ 26 }
        borrow := { poolIndex := RAY, p2pIndex := RAY } }
    deltas :=
      { supply := { scaledDelta := 0, scaledP2PTotal := 1000 }
        borrow := { scaledDelta := 0, scaledP2PTotal := 0 } }
    p2pIndexCursor := 0
    reserveFactor := 0
    liquidityIndex := RAY
    variableBorrowIndex := RAY
    currentLiquidityRate := 0
    currentVariableBorrowRate := 0
    supplyOnPool := 500
    borrowOnPool := 0 }

/-- Witness for C3: the spec's end-to-end scenario, `scaledP2PTotal = 1000`,
`newP2PIndex = 1.1 ray`, `poolHeldRawBalance = 500`, total `1600`. -/
theorem totalValueLocked_formula_witness :
    totalValueLockedSupply tvlExampleState = some 1600 := by
  have h := totalValueLocked_formula tvlExampleState 0
    { newP2PSupplyIndex := 11 * 10 ^ 26, newP2PBorrowIndex := RAY } (by rfl) (by rfl)
  exact h.1.trans (by rfl)

/-- C2: the blended effective rate of `_getProtocolTokenApr` equals
`rayDiv(rayMul(p2pRate, p2pAmount) + rayMul(poolRate, poolAmount), totalAmount)`
with `totalAmount = p2pAmount + poolAmount`, and whenever
`totalAmount = 0` it is exactly the raw pool rate
(`currentLiquidityRate` for supply, `currentVariableBorrowRate` for
borrow), returned without performing the division. -/
theorem aprRate_blend (st : MarketState) (propIdle : Nat) (idxs : P2PIndexes)
    (h1 : marketProportionIdle st = some propIdle)
    (h2 : computeP2PIndexes (irmParamsOf st propIdle) = some idxs) :
    (supplyP2PAmount st idxs + st.supplyOnPool = 0 →
        supplyAprRate st = some st.currentLiquidityRate) ∧
    (supplyP2PAmount st idxs + st.supplyOnPool ≠ 0 →
        supplyAprRate st =
          rayDiv (rayMul (computeP2PSupplyRatePerYear (supplyRateParamsOf st propIdle idxs))
                (supplyP2PAmount st idxs)
              + rayMul st.currentLiquidityRate st.supplyOnPool)
            (supplyP2PAmount st idxs + st.supplyOnPool)) ∧
    (borrowP2PAmount st idxs + st.borrowOnPool = 0 →
        borrowAprRate st = some st.currentVariableBorrowRate) ∧
    (borrowP2PAmount st idxs + st.borrowOnPool ≠ 0 →
        borrowAprRate st =
          rayDiv (rayMul (computeP2PBorrowRatePerYear (borrowRateParamsOf st propIdle idxs))
                (borrowP2PAmount st idxs)
              + rayMul st.currentVariableBorrowRate st.borrowOnPool)
            (borrowP2PAmount st idxs + st.borrowOnPool)) := by
  have hs : supplyAprRate st
      = if supplyP2PAmount st idxs + st.supplyOnPool = 0
        then some st.currentLiquidityRate
        else rayDiv (rayMul (computeP2PSupplyRatePerYear (supplyRateParamsOf st propIdle idxs))
              (supplyP2PAmount st idxs)
            + rayMul st.currentLiquidityRate st.supplyOnPool)
          (supplyP2PAmount st idxs + st.supplyOnPool) := by
    unfold supplyAprRate
    simp only [h1, h2, Option.bind_eq_bind, Option.some_bind]
    rfl
  have hb : borrowAprRate st
      = if borrowP2PAmount st idxs + st.borrowOnPool = 0
        then some st.currentVariableBorrowRate
        else rayDiv (rayMul (computeP2PBorrowRatePerYear (borrowRateParamsOf st propIdle idxs))
              (borrowP2PAmount st idxs)
            + rayMul st.currentVariableBorrowRate st.borrowOnPool)
          (borrowP2PAmount st idxs + st.borrowOnPool) := by
    unfold borrowAprRate
    simp only [h1, h2, Option.bind_eq_bind, Option.some_bind]
    rfl
  refine ⟨fun h => ?_, fun h => ?_, fun h => ?_, fun h => ?_⟩
  · rw [hs, if_pos h]
  · rw [hs, if_neg h]
  · rw [hb, if_pos h]
  · rw [hb, if_neg h]

/-- A concrete empty market (no P2P totals, nothing held on pool) with pool
rates `42` (liquidity) and `77` (variable borrow). -/
def aprExampleState : MarketState :=
  { idleSupply := 0
    indexes :=
      { supply := { poolIndex := RAY, p2pIndex := RAY }
        borrow := { poolIndex := RAY, p2pIndex := RAY } }
    deltas :=
      { supply := { scaledDelta := 0, scaledP2PTotal := 0 }
        borrow := { scaledDelta := 0, scaledP2PTotal := 0 } }
    p2pIndexCursor := 0
    reserveFactor := 0
    liquidityIndex := RAY
    variableBorrowIndex := RAY
    currentLiquidityRate := 42
    currentVariableBorrowRate := 77
    supplyOnPool := 0
    borrowOnPool := 0 }

/-- Witness for C2: on the empty market both branches return the raw pool
rates exactly. -/
theorem aprRate_blend_witness :
    supplyAprRate aprExampleState = some 42 ∧ borrowAprRate aprExampleState = some 77 := by
  have h := aprRate_blend aprExampleState 0
    { newP2PSupplyIndex := RAY, newP2PBorrowIndex := RAY } (by rfl) (by rfl)
  exact ⟨(h.1 (by rfl)).trans (by rfl), (h.2.2.1 (by rfl)).trans (by rfl)⟩

/-- A file-cache entry different from the hardcoded REUSD metadata. -/
def cxOtherMetadata : Erc20Metadata :=
  { address := "0xother", name := "Other", symbol := "OTH", decimals := 6 }

/-- A resolver environment on Ethereum whose file cache answers every
lookup with `cxOtherMetadata` and whose on-chain lookup fails. -/
def metadataCxEnv : MetadataEnv :=
  { chainId := ethereumChainId
    checksum := id
    nativeTokenAddresses := []
    nativeInfo := { name := "Ether", symbol := "ETH", decimals := 18 }
    fileCache := some (fun _ => some cxOtherMetadata)
    onChain := none }

/-- C8 counterexample: for the REUSD token address on Ethereum the resolver
returns the hardcoded constant before ever consulting the static file
cache — here the file cache holds a different entry for that address, yet
the result is the hardcoded metadata, so resolution does not first consult
the file cache for every token address and chain. -/
theorem getTokenMetadata_cx :
    getTokenMetadata metadataCxEnv realEstateTokenMetadata.address
        = Except.ok realEstateTokenMetadata ∧
    fileLookup metadataCxEnv realEstateTokenMetadata.address = some cxOtherMetadata ∧
    realEstateTokenMetadata ≠ cxOtherMetadata := by
  refine ⟨rfl, rfl, by decide⟩

/-- C8 (amended): apart from two hardcoded special cases that precede it
(the REUSD token on Ethereum and the native-token addresses), metadata
resolution first consults the static file cache; on a cache miss it falls
back to the live on-chain lookup; and it throws an error exactly when both
the file cache and the on-chain lookup fail to produce metadata. -/
theorem getTokenMetadata_amended (env : MetadataEnv) (tokenAddress : String)
    (hre : ¬(env.checksum tokenAddress = realEstateTokenMetadata.address
        ∧ env.chainId = ethereumChainId))
    (hnative : tokenAddress ∉ env.nativeTokenAddresses) :
    (∀ m, fileLookup env tokenAddress = some m →
        getTokenMetadata env tokenAddress =
          Except.ok { address := env.checksum m.address, name := m.name,
                      symbol := m.symbol, decimals := m.decimals }) ∧
    (∀ m, fileLookup env tokenAddress = none → env.onChain = some m →
        getTokenMetadata env tokenAddress = Except.ok m) ∧
    ((∃ e, getTokenMetadata env tokenAddress = Except.error e) ↔
        fileLookup env tokenAddress = none ∧ env.onChain = none) := by
  refine ⟨?_, ?_, ?_⟩
  · intro m hm
    simp only [getTokenMetadata, if_neg hre, if_neg hnative, hm]
  · intro m hm hc
    simp only [getTokenMetadata, if_neg hre, if_neg hnative, hm, hc]
  · constructor
    · rintro ⟨e, he⟩
      simp only [getTokenMetadata, if_neg hre, if_neg hnative] at he
      rcases hf : fileLookup env tokenAddress with _ | m
      · rw [hf] at he
        rcases hc : env.onChain with _ | m2
        · exact ⟨rfl, rfl⟩
        · rw [hc] at he
          simp at he
      · rw [hf] at he
        simp at he
    · rintro ⟨hf, hc⟩
      refine ⟨"Cannot find token metadata for token", ?_⟩
      simp only [getTokenMetadata, if_neg hre, if_neg hnative, hf, hc]

/-- A resolver environment (not Ethereum) whose file cache holds an entry
for the queried address and whose on-chain lookup fails. -/
def metadataWitnessEnv : MetadataEnv :=
  { chainId := 42161
    checksum := id
    nativeTokenAddresses := []
    nativeInfo := { name := "Ether", symbol := "ETH", decimals := 18 }
    fileCache := some (fun _ =>
      some { address := "0xfoo", name := "Foo", symbol := "FOO", decimals := 8 })
    onChain := none }

/-- Witness for C8 (amended): a cache hit is returned even though the
on-chain lookup would fail. -/
theorem getTokenMetadata_amended_witness :
    getTokenMetadata metadataWitnessEnv "0xfoo"
      = Except.ok { address := "0xfoo", name := "Foo", symbol := "FOO", decimals := 8 } := by
  have h := getTokenMetadata_amended metadataWitnessEnv "0xfoo" (by decide) (by decide)
  exact (h.1 { address := "0xfoo", name := "Foo", symbol := "FOO", decimals := 8 } (by rfl)).trans
    (by rfl)

/-- C9: every position returned by `getPositions` has a nonzero raw
balance, and its balance is the per-market fetch selected by the adapter's
position type: the sum of the supply and collateral balances for
supply-position adapters, the borrow balance for borrow-position
adapters. -/
theorem getPositions_nonzero_balances (positionType : PositionType)
    (oracle : BalanceOracle) (pools : List PoolMetadata) (pos : ProtocolPosition)
    (hmem : pos ∈ getPositions positionType oracle pools) :
    pos.balanceRaw ≠ 0 ∧
    ∃ pool ∈ pools, pos.address = pool.protocolToken.address ∧
      pos.balanceRaw =
        (if positionType = PositionType.supply then
          oracle.supplyBalance pool.underlyingToken.address
            + oracle.collateralBalance pool.underlyingToken.address
        else oracle.borrowBalance pool.underlyingToken.address) := by
  unfold getPositions at hmem
  rcases List.mem_map.mp hmem with ⟨pb, hpb, rfl⟩
  rcases List.mem_filter.mp hpb with ⟨hpb2, hne⟩
  rcases List.mem_map.mp hpb2 with ⟨pool, hpool, rfl⟩
  refine ⟨by simpa using hne, pool, hpool, rfl, ?_⟩
  simp [getBalance]

/-- A concrete market pair for the position witnesses. -/
def witnessPool : PoolMetadata :=
  { protocolToken :=
      { address := "0xprot", name := "Morpho-Aave WETH", symbol := "maWETH", decimals := 18 }
    underlyingToken :=
      { address := "0xund", name := "Wrapped Ether", symbol := "WETH", decimals := 18 } }

/-- A concrete balance oracle: supply `3`, collateral `4`, borrow `9`. -/
def witnessOracle : BalanceOracle :=
  { supplyBalance := fun _ => 3
    collateralBalance := fun _ => 4
    borrowBalance := fun _ => 9 }

/-- The position `getPositions` builds for `witnessPool` under
`witnessOracle` with a supply position type. -/
def witnessPosition : ProtocolPosition :=
  { address := "0xprot"
    balanceRaw := 7
    name := "Morpho-Aave WETH"
    symbol := "maWETH"
    decimals := 18
    tokens := [{ token := witnessPool.underlyingToken, balanceRaw := 7 }] }

/-- Witness for C9 at a concrete market, oracle and returned position. -/
theorem getPositions_nonzero_balances_witness :
    witnessPosition.balanceRaw ≠ 0 ∧
    ∃ pool ∈ [witnessPool], witnessPosition.address = pool.protocolToken.address ∧
      witnessPosition.balanceRaw =
        (if PositionType.supply = PositionType.supply then
          witnessOracle.supplyBalance pool.underlyingToken.address
            + witnessOracle.collateralBalance pool.underlyingToken.address
        else witnessOracle.borrowBalance pool.underlyingToken.address) :=
  getPositions_nonzero_balances PositionType.supply witnessOracle [witnessPool]
    witnessPosition (by decide)

/-- C10: for a supply-position adapter, every market with a nonzero
combined balance yields a position whose single raw balance is the sum
`supplyBalance + collateralBalance` of the two separate on-chain reads,
whose attached underlying token balance equals that protocol-token raw
balance unchanged, and whose underlying conversion rate is exactly
`10 ^ decimals` of the protocol token. -/
theorem getPositions_supply_underlying (oracle : BalanceOracle)
    (pools : List PoolMetadata) (pool : PoolMetadata) (hmem : pool ∈ pools)
    (hnz : oracle.supplyBalance pool.underlyingToken.address
        + oracle.collateralBalance pool.underlyingToken.address ≠ 0) :
    ∃ pos ∈ getPositions PositionType.supply oracle pools,
      pos.address = pool.protocolToken.address ∧
      pos.balanceRaw = oracle.supplyBalance pool.underlyingToken.address
          + oracle.collateralBalance pool.underlyingToken.address ∧
      pos.tokens = [{ token := pool.underlyingToken, balanceRaw := pos.balanceRaw }] ∧
      underlyingTokenConversionRate pool =
        [{ token := pool.underlyingToken,
           underlyingRateRaw := 10 ^ pool.protocolToken.decimals }] := by
  refine ⟨{ address := pool.protocolToken.address
            balanceRaw := getBalance PositionType.supply oracle pool.underlyingToken.address
            name := pool.protocolToken.name
            symbol := pool.protocolToken.symbol
            decimals := pool.protocolToken.decimals
            tokens := underlyingTokenBalances pool
              (getBalance PositionType.supply oracle pool.underlyingToken.address) },
    ?_, rfl, rfl, rfl, ?_⟩
  · unfold getPositions
    refine List.mem_map.mpr
      ⟨(pool, getBalance PositionType.supply oracle pool.underlyingToken.address), ?_, rfl⟩
    refine List.mem_filter.mpr ⟨List.mem_map.mpr ⟨pool, hmem, rfl⟩, ?_⟩
    exact decide_eq_true hnz
  · simp [underlyingTokenConversionRate]

/-- Witness for C10 at a concrete market and oracle. -/
theorem getPositions_supply_underlying_witness :
    ∃ pos ∈ getPositions PositionType.supply witnessOracle [witnessPool],
      pos.address = witnessPool.protocolToken.address ∧
      pos.balanceRaw = witnessOracle.supplyBalance witnessPool.underlyingToken.address
          + witnessOracle.collateralBalance witnessPool.underlyingToken.address ∧
      pos.tokens = [{ token := witnessPool.underlyingToken, balanceRaw := pos.balanceRaw }] ∧
      underlyingTokenConversionRate witnessPool =
        [{ token := witnessPool.underlyingToken,
           underlyingRateRaw := 10 ^ witnessPool.protocolToken.decimals }] :=
  getPositions_supply_underlying witnessOracle [witnessPool] witnessPool
    (List.mem_singleton.mpr rfl) (by decide)
